import Mathlib

/-!
Shallow embedding of the geometry core of `src/python-service/inference_service.py`
(LinuxHello inference service): letterbox preprocessing, output-topology
classification, per-scale anchor decoding, coordinate remapping, greedy NMS,
IoU, and the face-alignment entry points.  Python floats are modelled as exact
rationals (ℚ); Python ints as ℤ/ℕ with Python's floor division written
explicitly (`Int.fdiv`); numpy arrays as a shape list plus a flat data list.
-/

namespace LinuxHello

/-- Axis-aligned box `(x1, y1, x2, y2)`, the `bbox` list of a detection dict. -/
structure Box where
  x1 : ℚ
  y1 : ℚ
  x2 : ℚ
  y2 : ℚ
deriving DecidableEq, Repr

/-- One detection dict: `{'bbox': [...], 'confidence': s, 'landmarks': [...]}`. -/
structure Detection where
  bbox : Box
  confidence : ℚ
  landmarks : List (ℚ × ℚ)
deriving DecidableEq, Repr

/-- The `transform_info` dict produced by `FaceDetector.preprocess`. -/
structure TransformInfo where
  originalWidth : ℚ
  originalHeight : ℚ
  scale : ℚ
  xOffset : ℚ
  yOffset : ℚ
  resizedWidth : ℚ
  resizedHeight : ℚ
deriving DecidableEq, Repr

/-- A numpy array as seen by the output classifier: its shape and its
flattened (row-major) contents. -/
structure NpArray where
  shape : List ℕ
  data : List ℚ
deriving DecidableEq, Repr

namespace FaceDetector

/-- `FaceDetector.iou` (lines 410-430): intersection-over-union of two boxes.
Returns `0` when the intersection rectangle is empty (`x2 <= x1 or y2 <= y1`)
and when the computed union is not positive. -/
def iou (box1 box2 : Box) : ℚ :=
  let x1 := max box1.x1 box2.x1
  let y1 := max box1.y1 box2.y1
  let x2 := min box1.x2 box2.x2
  let y2 := min box1.y2 box2.y2
  if x2 ≤ x1 ∨ y2 ≤ y1 then 0
  else
    let intersection := (x2 - x1) * (y2 - y1)
    let area1 := (box1.x2 - box1.x1) * (box1.y2 - box1.y1)
    let area2 := (box2.x2 - box2.x1) * (box2.y2 - box2.y1)
    let union := area1 + area2 - intersection
    if 0 < union then intersection / union else 0

/-- `sorted(detections, key=lambda x: x['confidence'], reverse=True)`:
stable descending sort by confidence (Python's `sorted` is stable;
`mergeSort` is the stable sort of the Lean library). -/
def sortByConfDesc (detections : List Detection) : List Detection :=
  detections.mergeSort (fun a b => decide (b.confidence ≤ a.confidence))

/-- The `while detections:` loop of `FaceDetector.nms` (lines 397-407):
pop the head, keep it, and drop every remaining detection whose IoU with it
is `≥ threshold` (the comprehension keeps `iou < threshold`). -/
def nmsLoop (detections : List Detection) (threshold : ℚ) : List Detection :=
  match detections with
  | [] => []
  | current :: rest =>
      current ::
        nmsLoop (rest.filter (fun d => decide (iou current.bbox d.bbox < threshold))) threshold
termination_by detections.length
decreasing_by
  simp only [List.length_cons]
  exact Nat.lt_succ_of_le (List.length_filter_le _ _)

/-- `FaceDetector.nms` (lines 388-408): early return on the empty list, else
stable-sort by confidence descending and run the greedy suppression loop. -/
def nms (detections : List Detection) (threshold : ℚ) : List Detection :=
  if detections.length = 0 then []
  else nmsLoop (sortByConfDesc detections) threshold

/-- `FaceDetector.preprocess` (lines 117-172), the `transform_info` part.
`scale = 640 / max(h, w)` (exact rational in place of the Python float);
`new_w = int(w * scale)` — Python `int()` truncates toward zero and the
operand is nonnegative, so it is the floor; offsets use Python's floor
division `//`, written `Int.fdiv`.  The pixel resizing/normalisation has no
effect on `transform_info` and is not modelled. -/
def preprocess (h w : ℕ) : TransformInfo :=
  let targetSize : ℕ := 640
  let scale : ℚ := (targetSize : ℚ) / (max h w : ℕ)
  let new_w : ℤ := ⌊(w : ℚ) * scale⌋
  let new_h : ℤ := ⌊(h : ℚ) * scale⌋
  let y_offset : ℤ := Int.fdiv ((targetSize : ℤ) - new_h) 2
  let x_offset : ℤ := Int.fdiv ((targetSize : ℤ) - new_w) 2
  { originalWidth := w
    originalHeight := h
    scale := scale
    xOffset := x_offset
    yOffset := y_offset
    resizedWidth := new_w
    resizedHeight := new_h }

/-- `FaceDetector._determine_model_topology` (lines 174-190).  The three
branches of the stride table; anchors-per-position from the largest scale
with `max 1` and Nat floor division.  Python raises `IndexError` on an empty
`scores_out` (`scores_out[0]`, `strides[0]`); accesses are total here via
`getD`/`headD` and `detect` guards the empty case explicitly. -/
def _determine_model_topology (scoresOut : List (ℕ × NpArray)) : List ℕ × ℕ :=
  let numScales := scoresOut.length
  let strides : List ℕ :=
    if numScales = 3 then [8, 16, 32]
    else if numScales = 5 then [8, 16, 32, 64, 128]
    else (List.range numScales).map (fun i => 2 ^ i * 8)
  let largestCount := (scoresOut.headD (0, ⟨[], []⟩)).1
  let featSizeLargest := 640 / strides.headD 0
  let numAnchors := max 1 (largestCount / (featSizeLargest * featSizeLargest))
  (strides, numAnchors)

/-- `FaceDetector._decode_bbox` (lines 192-199): anchor-relative box decode.
`bboxRow` is row `i` of the `(N, 4)` regression array; Python unpacks exactly
4 entries (raising on a shorter row), modelled with `getD`. -/
def _decode_bbox (bboxRow : List ℚ) (cx cy stride : ℚ) : Box :=
  let dx1 := bboxRow.getD 0 0
  let dy1 := bboxRow.getD 1 0
  let dx2 := bboxRow.getD 2 0
  let dy2 := bboxRow.getD 3 0
  { x1 := cx - dx1 * stride
    y1 := cy - dy1 * stride
    x2 := cx + dx2 * stride
    y2 := cy + dy2 * stride }

/-- `FaceDetector._transform_coords_to_original` (lines 201-219): subtract the
padding offsets, clamp to the resized extent, divide by the scale, clamp to
the original extent. -/
def _transform_coords_to_original (x y : ℚ) (transformInfo : TransformInfo)
    (originalW originalH : ℚ) : ℚ × ℚ :=
  let xResized := x - transformInfo.xOffset
  let yResized := y - transformInfo.yOffset
  let xResized := max 0 (min xResized transformInfo.resizedWidth)
  let yResized := max 0 (min yResized transformInfo.resizedHeight)
  let xOrig := xResized / transformInfo.scale
  let yOrig := yResized / transformInfo.scale
  let xOrig := max 0 (min xOrig originalW)
  let yOrig := max 0 (min yOrig originalH)
  (xOrig, yOrig)

/-- `FaceDetector._decode_landmarks` (lines 221-236): five landmark points,
each offset from the anchor centre by `stride` and remapped.  `kpsRow` is row
`i` of the `(N, 10)` keypoint array (shorter rows would raise `IndexError` in
Python; accesses are total here via `getD`). -/
def _decode_landmarks (kpsRow : List ℚ) (cx cy stride : ℚ)
    (transformInfo : TransformInfo) (originalW originalH : ℚ) : List (ℚ × ℚ) :=
  (List.range 5).map (fun j =>
    let kpx := kpsRow.getD (j * 2) 0
    let kpy := kpsRow.getD (j * 2 + 1) 0
    let lx640 := cx + kpx * stride
    let ly640 := cy + kpy * stride
    _transform_coords_to_original lx640 ly640 transformInfo originalW originalH)

/-- `FaceDetector._process_scale_detections` (lines 238-293): flatten the
score tensor, keep indices with `score >= conf_threshold`, and for each kept
index decode the grid cell, box and landmarks and remap them.  Row `i` of an
`(N, k)` array is `data.drop (k*i) |>.take k` of its row-major contents. -/
def _process_scale_detections (scaleIdx : ℕ)
    (scoresOut bboxesOut kpsOut : List (ℕ × NpArray))
    (strides : List ℕ) (numAnchors : ℕ) (transformInfo : TransformInfo)
    (originalW originalH : ℚ) (confThreshold : ℚ) : List Detection :=
  let scoreTensor := (scoresOut.getD scaleIdx (0, ⟨[], []⟩)).2
  let bboxes := (bboxesOut.getD scaleIdx (0, ⟨[], []⟩)).2
  let keypoints := (kpsOut.getD scaleIdx (0, ⟨[], []⟩)).2
  let stride := strides.getD scaleIdx 0
  let featSize := 640 / stride
  let scores := scoreTensor.data
  (List.range scores.length).filterMap (fun i =>
    if confThreshold ≤ scores.getD i 0 then
      let score := scores.getD i 0
      let posIdx := i / numAnchors
      let hIdx := posIdx / featSize
      let wIdx := posIdx % featSize
      let cx : ℚ := ((wIdx : ℚ) + 1/2) * (stride : ℚ)
      let cy : ℚ := ((hIdx : ℚ) + 1/2) * (stride : ℚ)
      let b640 := _decode_bbox ((bboxes.data.drop (4 * i)).take 4) cx cy (stride : ℚ)
      let p1 := _transform_coords_to_original b640.x1 b640.y1 transformInfo originalW originalH
      let p2 := _transform_coords_to_original b640.x2 b640.y2 transformInfo originalW originalH
      let landmarks := _decode_landmarks ((keypoints.data.drop (10 * i)).take 10)
        cx cy (stride : ℚ) transformInfo originalW originalH
      some { bbox := ⟨p1.1, p1.2, p2.1, p2.2⟩, confidence := score, landmarks := landmarks }
    else none)

/-- The per-array normalisation at the top of
`FaceDetector._classify_and_sort_outputs` (lines 301-308): drop a leading
batch dimension of size 1, and reshape a rank-1 array to a column. -/
def squeezeArr (arr : NpArray) : NpArray :=
  let arr := if arr.shape.length = 3 ∧ arr.shape.headD 0 = 1 then
    { arr with shape := arr.shape.tail } else arr
  if arr.shape.length < 2 ∧ arr.shape.length = 1 then
    { arr with shape := [arr.shape.headD 0, 1] } else arr

/-- `FaceDetector._classify_and_sort_outputs` (lines 295-325): classify each
output by trailing dimension (`1` score, `4` box, `10` keypoints; anything
else ignored), pairing each with its row count, then stable-sort each group
descending by row count (Python `list.sort` is stable).  `shape[-1]` /
`shape[0]` on a rank-0 array would raise in Python; `getLastD`/`headD` keep
the definition total (such an array matches no group). -/
def _classify_and_sort_outputs (outputsList : List NpArray) :
    List (ℕ × NpArray) × List (ℕ × NpArray) × List (ℕ × NpArray) :=
  let classified := outputsList.map squeezeArr
  let scoresOut := classified.filterMap (fun arr =>
    if arr.shape.getLastD 0 = 1 then some (arr.shape.headD 0, arr) else none)
  let bboxesOut := classified.filterMap (fun arr =>
    if arr.shape.getLastD 0 = 4 then some (arr.shape.headD 0, arr) else none)
  let kpsOut := classified.filterMap (fun arr =>
    if arr.shape.getLastD 0 = 10 then some (arr.shape.headD 0, arr) else none)
  let byRowsDesc : ℕ × NpArray → ℕ × NpArray → Bool := fun a b => decide (b.1 ≤ a.1)
  (scoresOut.mergeSort byRowsDesc, bboxesOut.mergeSort byRowsDesc,
    kpsOut.mergeSort byRowsDesc)

/-- `FaceDetector.detect` (lines 327-386), with the externally produced pieces
as parameters: the image is represented by its dimensions (only
`image.shape[:2]` and `preprocess` are used) and `outputsList` is the tensor
list returned by `session.run`.  On a group-count mismatch the function
returns the empty list; reaching `_determine_model_topology` with an empty
(but balanced) classification raises `IndexError` in Python, modelled as
`Except.error`. -/
def detect (h w : ℕ) (outputsList : List NpArray) (confThreshold nmsThreshold : ℚ) :
    Except String (List Detection) :=
  let transformInfo := preprocess h w
  let groups := _classify_and_sort_outputs outputsList
  let scoresOut := groups.1
  let bboxesOut := groups.2.1
  let kpsOut := groups.2.2
  if ¬(scoresOut.length = bboxesOut.length ∧ bboxesOut.length = kpsOut.length) then
    Except.ok []
  else if scoresOut.length = 0 then
    Except.error "IndexError in _determine_model_topology on empty scores_out"
  else
    let topo := _determine_model_topology scoresOut
    let detections := (List.range scoresOut.length).flatMap (fun scaleIdx =>
      _process_scale_detections scaleIdx scoresOut bboxesOut kpsOut
        topo.1 topo.2 transformInfo (w : ℚ) (h : ℚ) confThreshold)
    Except.ok (nms detections nmsThreshold)

end FaceDetector

/-- A 2x3 affine matrix as returned by `cv2.estimateAffinePartial2D`. -/
structure Tform where
  a : ℚ
  b : ℚ
  tx : ℚ
  c : ℚ
  d : ℚ
  ty : ℚ
deriving DecidableEq, Repr

/-- Outcome of `FaceRecognizer.align_face`: either a Python exception
propagates, or the warped image (identified by the transform cv2 applies to
it — the pixel resampling itself is external to the repository) is returned. -/
inductive AlignResult where
  | pyError (msg : String)
  | aligned (tform : Tform)
deriving DecidableEq, Repr

namespace FaceRecognizer

/-- `FaceRecognizer.align_face` (lines 459-479).  The estimation itself is
`cv2.estimateAffinePartial2D` (OpenCV, external to the repository), passed in
as the oracle `estimate`.  The repository code performs no degeneracy or
singularity check of its own: it takes element `[0]` of the estimator's
result and hands it straight to `cv2.warpAffine`.  If the estimator needs
equally many source and target points, a landmark list of length ≠ 5 makes
the call raise (`cv2.error`); if the estimator returns `None`, `warpAffine`
raises a `cv2.error` on the `None` matrix; otherwise the warp is performed
unconditionally and its result returned. -/
def align_face (estimate : List (ℚ × ℚ) → Option Tform)
    (landmarks : List (ℚ × ℚ)) : AlignResult :=
  if landmarks.length ≠ 5 then
    AlignResult.pyError "cv2.error: from and to must have the same point count"
  else
    match estimate landmarks with
    | none => AlignResult.pyError "cv2.error: warpAffine on a None matrix"
    | some tform => AlignResult.aligned tform

/-- `FaceRecognizer.extract_embedding` (lines 481-501), down to the point
where the aligned face is handed to the recognition network: the result of
`align_face` is consumed unconditionally — there is no error branch between
alignment and embedding extraction, so whenever `align_face` returns an
image the pipeline proceeds to the network.  `some tform` means the
recognition network was invoked on the face warped by `tform`. -/
def extract_embedding_reaches_network (estimate : List (ℚ × ℚ) → Option Tform)
    (landmarks : List (ℚ × ℚ)) : Option Tform :=
  match align_face estimate landmarks with
  | AlignResult.pyError _ => none
  | AlignResult.aligned tform => some tform

end FaceRecognizer

namespace PyHeap

/-- A fragment of the Python heap: the list objects alive during a call to
`FaceDetector.nms`, each cell one list object.  Indices are object
identities; `heap.getD r []` reads the object at reference `r`. -/
abbrev Heap := List (List Detection)

open FaceDetector

/-- The `while detections:` loop of `FaceDetector.nms` at the level of list
objects.  `dref` is the local variable `detections`, `kref` the local
`keep`.  Each iteration: `detections.pop(0)` mutates the object at `dref`;
`keep.append(current)` mutates the object at `kref`; the list comprehension
allocates a fresh object (appended to the heap) and rebinds `detections` to
it.  No other object is touched. -/
def nmsLoopHeap (heap : Heap) (dref kref : ℕ) (threshold : ℚ) : Heap :=
  match h : heap.getD dref [] with
  | [] => heap
  | current :: rest =>
      let heap1 := heap.set dref rest
      let heap2 := heap1.set kref (heap1.getD kref [] ++ [current])
      let filtered := rest.filter (fun d => decide (iou current.bbox d.bbox < threshold))
      nmsLoopHeap (heap2 ++ [filtered]) heap2.length kref threshold
termination_by (heap.getD dref []).length
decreasing_by
  simp only [List.getD_append_right, List.length_set, Nat.le_refl, Nat.sub_self,
    List.getD_cons_zero, h, List.length_cons]
  exact Nat.lt_succ_of_le (List.length_filter_le _ _)

/-- `FaceDetector.nms` at the level of list objects.  `argRef` is the caller's
list object.  `sorted(...)` allocates a fresh object for the sorted copy and
rebinds the local `detections` to it; `keep = []` allocates another.  The
result is the pair (contents of `keep` at return, final heap). -/
def nmsHeap (heap : Heap) (argRef : ℕ) (threshold : ℚ) : List Detection × Heap :=
  let input := heap.getD argRef []
  if input.length = 0 then ([], heap)
  else
    let heap1 := heap ++ [sortByConfDesc input]
    let dref := heap.length
    let heap2 := heap1 ++ [[]]
    let kref := heap1.length
    let heapF := nmsLoopHeap heap2 dref kref threshold
    (heapF.getD kref [], heapF)

end PyHeap

namespace FaceDetector

theorem iou_comm (b1 b2 : Box) : iou b1 b2 = iou b2 b1 := by
  simp only [iou, max_comm b1.x1 b2.x1, max_comm b1.y1 b2.y1,
    min_comm b1.x2 b2.x2, min_comm b1.y2 b2.y2,
    add_comm ((b1.x2 - b1.x1) * (b1.y2 - b1.y1)) ((b2.x2 - b2.x1) * (b2.y2 - b2.y1))]

theorem iou_self_eq_one (b : Box) (hx : b.x1 < b.x2) (hy : b.y1 < b.y2) :
    iou b b = 1 := by
  have hA : 0 < (b.x2 - b.x1) * (b.y2 - b.y1) :=
    mul_pos (by linarith) (by linarith)
  simp only [iou, max_self, min_self]
  rw [if_neg (by push_neg; exact ⟨by linarith, by linarith⟩)]
  rw [show (b.x2 - b.x1) * (b.y2 - b.y1) + (b.x2 - b.x1) * (b.y2 - b.y1) -
      (b.x2 - b.x1) * (b.y2 - b.y1) = (b.x2 - b.x1) * (b.y2 - b.y1) from by ring]
  rw [if_pos hA, div_self hA.ne']

theorem iou_bounds (b1 b2 : Box) : 0 ≤ iou b1 b2 ∧ iou b1 b2 ≤ 1 := by
  simp only [iou]
  split_ifs with h1 h2
  · exact ⟨le_refl 0, zero_le_one⟩
  · push_neg at h1
    obtain ⟨hx, hy⟩ := h1
    have hIx : 0 < min b1.x2 b2.x2 - max b1.x1 b2.x1 := by linarith
    have hIy : 0 < min b1.y2 b2.y2 - max b1.y1 b2.y1 := by linarith
    have hI : 0 < (min b1.x2 b2.x2 - max b1.x1 b2.x1) *
        (min b1.y2 b2.y2 - max b1.y1 b2.y1) := mul_pos hIx hIy
    have hI1 : (min b1.x2 b2.x2 - max b1.x1 b2.x1) *
        (min b1.y2 b2.y2 - max b1.y1 b2.y1) ≤ (b1.x2 - b1.x1) * (b1.y2 - b1.y1) := by
      have e1 : min b1.x2 b2.x2 - max b1.x1 b2.x1 ≤ b1.x2 - b1.x1 := by
        have := min_le_left b1.x2 b2.x2
        have := le_max_left b1.x1 b2.x1
        linarith
      have e2 : min b1.y2 b2.y2 - max b1.y1 b2.y1 ≤ b1.y2 - b1.y1 := by
        have := min_le_left b1.y2 b2.y2
        have := le_max_left b1.y1 b2.y1
        linarith
      exact mul_le_mul e1 e2 hIy.le (by linarith)
    have hI2 : (min b1.x2 b2.x2 - max b1.x1 b2.x1) *
        (min b1.y2 b2.y2 - max b1.y1 b2.y1) ≤ (b2.x2 - b2.x1) * (b2.y2 - b2.y1) := by
      have e1 : min b1.x2 b2.x2 - max b1.x1 b2.x1 ≤ b2.x2 - b2.x1 := by
        have := min_le_right b1.x2 b2.x2
        have := le_max_right b1.x1 b2.x1
        linarith
      have e2 : min b1.y2 b2.y2 - max b1.y1 b2.y1 ≤ b2.y2 - b2.y1 := by
        have := min_le_right b1.y2 b2.y2
        have := le_max_right b1.y1 b2.y1
        linarith
      exact mul_le_mul e1 e2 hIy.le (by linarith)
    constructor
    · exact div_nonneg hI.le (by linarith)
    · rw [div_le_one h2]
      linarith
  · exact ⟨le_refl 0, zero_le_one⟩

theorem iou_eq_zero_of_no_overlap (b1 b2 : Box)
    (h : min b1.x2 b2.x2 ≤ max b1.x1 b2.x1 ∨ min b1.y2 b2.y2 ≤ max b1.y1 b2.y1) :
    iou b1 b2 = 0 := by
  simp only [iou]
  rw [if_pos h]

theorem iou_eq_zero_of_zero_union (b1 b2 : Box)
    (h : (b1.x2 - b1.x1) * (b1.y2 - b1.y1) + (b2.x2 - b2.x1) * (b2.y2 - b2.y1) -
      (min b1.x2 b2.x2 - max b1.x1 b2.x1) * (min b1.y2 b2.y2 - max b1.y1 b2.y1) = 0) :
    iou b1 b2 = 0 := by
  simp only [iou]
  split_ifs with h1 h2
  · rfl
  · exact absurd h2 (by rw [h]; exact lt_irrefl 0)
  · rfl

/-- C7: IoU is symmetric; `IoU(b,b) = 1` for every non-degenerate box;
`0 ≤ IoU ≤ 1` for every pair; and IoU is `0` both for non-overlapping pairs
(empty intersection rectangle) and for pairs whose union area is zero. -/
theorem C7_iou_algebra :
    (∀ b1 b2 : Box, iou b1 b2 = iou b2 b1) ∧
    (∀ b : Box, b.x1 < b.x2 → b.y1 < b.y2 → iou b b = 1) ∧
    (∀ b1 b2 : Box, 0 ≤ iou b1 b2 ∧ iou b1 b2 ≤ 1) ∧
    (∀ b1 b2 : Box,
      min b1.x2 b2.x2 ≤ max b1.x1 b2.x1 ∨ min b1.y2 b2.y2 ≤ max b1.y1 b2.y1 →
      iou b1 b2 = 0) ∧
    (∀ b1 b2 : Box,
      (b1.x2 - b1.x1) * (b1.y2 - b1.y1) + (b2.x2 - b2.x1) * (b2.y2 - b2.y1) -
        (min b1.x2 b2.x2 - max b1.x1 b2.x1) *
          (min b1.y2 b2.y2 - max b1.y1 b2.y1) = 0 →
      iou b1 b2 = 0) :=
  ⟨iou_comm, iou_self_eq_one, iou_bounds, iou_eq_zero_of_no_overlap,
    iou_eq_zero_of_zero_union⟩

/-- Witness for C7 at concrete boxes: the unit box has self-IoU 1, and two
disjoint boxes have IoU 0. -/
theorem C7_iou_algebra_witness :
    iou ⟨0, 0, 1, 1⟩ ⟨0, 0, 1, 1⟩ = 1 ∧ iou ⟨0, 0, 1, 1⟩ ⟨5, 5, 6, 6⟩ = 0 :=
  ⟨C7_iou_algebra.2.1 ⟨0, 0, 1, 1⟩ (by norm_num) (by norm_num),
    C7_iou_algebra.2.2.2.1 ⟨0, 0, 1, 1⟩ ⟨5, 5, 6, 6⟩ (by norm_num)⟩

theorem nmsLoop_sublist (l : List Detection) (t : ℚ) : List.Sublist (nmsLoop l t) l := by
  induction l, t using nmsLoop.induct with
  | case1 t => simp [nmsLoop]
  | case2 t current rest ih =>
      rw [nmsLoop]
      exact List.Sublist.cons₂ current (ih.trans (List.filter_sublist _))

theorem nmsLoop_pairwise_iou (l : List Detection) (t : ℚ) :
    (nmsLoop l t).Pairwise (fun a b => iou a.bbox b.bbox < t) := by
  induction l, t using nmsLoop.induct with
  | case1 t => simp [nmsLoop]
  | case2 t current rest ih =>
      rw [nmsLoop]
      refine List.Pairwise.cons ?_ ih
      intro b hb
      have hb' := (nmsLoop_sublist _ _).subset hb
      rw [List.mem_filter] at hb'
      exact of_decide_eq_true hb'.2

theorem confDescLe_trans :
    ∀ a b c : Detection, (fun a b : Detection => decide (b.confidence ≤ a.confidence)) a b →
      (fun a b : Detection => decide (b.confidence ≤ a.confidence)) b c →
      (fun a b : Detection => decide (b.confidence ≤ a.confidence)) a c := by
  intro a b c hab hbc
  simp only [decide_eq_true_eq] at *
  exact le_trans hbc hab

theorem confDescLe_total :
    ∀ a b : Detection, (fun a b : Detection => decide (b.confidence ≤ a.confidence)) a b ||
      (fun a b : Detection => decide (b.confidence ≤ a.confidence)) b a := by
  intro a b
  simpa [Bool.or_eq_true, decide_eq_true_eq] using le_total b.confidence a.confidence

theorem sortByConfDesc_pairwise (l : List Detection) :
    (sortByConfDesc l).Pairwise (fun a b => b.confidence ≤ a.confidence) := by
  have h := List.sorted_mergeSort confDescLe_trans confDescLe_total l
  exact h.imp (fun hab => of_decide_eq_true hab)

/-- C1: greedy NMS output is a subset of the input, sorted descending by
confidence, pairwise `IoU < threshold` in both argument orders, and it is a
sublist of the stable descending sort `sortByConfDesc`, which itself keeps
equal-confidence elements in original input order (stability). -/
theorem C1_nms_greedy (l : List Detection) (t : ℚ) :
    (∀ d ∈ nms l t, d ∈ l) ∧
    (nms l t).Pairwise (fun a b => b.confidence ≤ a.confidence) ∧
    (nms l t).Pairwise (fun a b => iou a.bbox b.bbox < t ∧ iou b.bbox a.bbox < t) ∧
    List.Sublist (nms l t) (sortByConfDesc l) ∧
    (∀ a b : Detection, List.Sublist [a, b] l → a.confidence = b.confidence →
      List.Sublist [a, b] (sortByConfDesc l)) := by
  have hsub : List.Sublist (nms l t) (sortByConfDesc l) := by
    by_cases hl : l.length = 0
    · rw [nms, if_pos hl]
      exact List.nil_sublist _
    · rw [nms, if_neg hl]
      exact nmsLoop_sublist _ _
  refine ⟨?_, ?_, ?_, hsub, ?_⟩
  · intro d hd
    have := hsub.subset hd
    rw [sortByConfDesc, List.mem_mergeSort] at this
    exact this
  · exact (sortByConfDesc_pairwise l).sublist hsub
  · by_cases hl : l.length = 0
    · rw [nms, if_pos hl]
      exact List.Pairwise.nil
    · rw [nms, if_neg hl]
      exact (nmsLoop_pairwise_iou _ _).imp
        (fun h => ⟨h, by rw [iou_comm]; exact h⟩)
  · intro a b hab hconf
    exact List.pair_sublist_mergeSort confDescLe_trans confDescLe_total
      (by simp [hconf]) hab

/-- Witness for C1 at a concrete pair of fully overlapping detections with
threshold `2/5`: the kept detection is an element of the input. -/
theorem C1_nms_greedy_witness :
    Detection.mk ⟨0, 0, 10, 10⟩ (9/10) [] ∈
      [Detection.mk ⟨0, 0, 10, 10⟩ (9/10) [], Detection.mk ⟨0, 0, 10, 10⟩ (8/10) []] := by
  refine (C1_nms_greedy
    [Detection.mk ⟨0, 0, 10, 10⟩ (9/10) [], Detection.mk ⟨0, 0, 10, 10⟩ (8/10) []]
    (2/5)).1 (Detection.mk ⟨0, 0, 10, 10⟩ (9/10) []) ?_
  have hs : sortByConfDesc
      [Detection.mk ⟨0, 0, 10, 10⟩ (9/10) [], Detection.mk ⟨0, 0, 10, 10⟩ (8/10) []] =
      [Detection.mk ⟨0, 0, 10, 10⟩ (9/10) [], Detection.mk ⟨0, 0, 10, 10⟩ (8/10) []] := by
    rw [sortByConfDesc]
    refine List.mergeSort_of_sorted ?_
    refine List.Pairwise.cons ?_ (List.pairwise_singleton _ _)
    intro b hb
    rw [List.mem_singleton] at hb
    subst hb
    simp only [decide_eq_true_eq]
    norm_num
  rw [nms, if_neg (by decide), hs, nmsLoop]
  exact List.mem_cons_self _ _

end FaceDetector

namespace PyHeap

open FaceDetector

theorem hgetD_set_ne (heap : Heap) {i j : ℕ} (h : i ≠ j) (v : List Detection) :
    (heap.set i v).getD j [] = heap.getD j [] := by
  simp [List.getD_eq_getElem?_getD, List.getElem?_set_ne h]

theorem hgetD_set_self (heap : Heap) {i : ℕ} (h : i < heap.length) (v : List Detection) :
    (heap.set i v).getD i [] = v := by
  simp [List.getD_eq_getElem?_getD, List.getElem?_set_self h]

theorem hgetD_append_left (heap heap' : Heap) {i : ℕ} (h : i < heap.length) :
    (heap ++ heap').getD i [] = heap.getD i [] := by
  simp [List.getD_eq_getElem?_getD, List.getElem?_append_left h]

theorem hgetD_append_cell (heap : Heap) (v : List Detection) :
    (heap ++ [v]).getD heap.length [] = v := by
  rw [List.getD_eq_getElem?_getD, List.getElem?_append_right (le_refl _)]
  simp

/-- The loop mutates only the current `detections` object chain and the
`keep` object: every cell below `dref` and distinct from `kref` is left
exactly as it was. -/
theorem nmsLoopHeap_frame :
    ∀ (heap : Heap) (dref kref : ℕ) (t : ℚ) (i : ℕ),
      i < dref → i ≠ kref → dref < heap.length → kref < heap.length →
      (nmsLoopHeap heap dref kref t).getD i [] = heap.getD i [] := by
  intro heap dref kref t
  induction heap, dref, kref, t using nmsLoopHeap.induct with
  | case1 heap dref kref t h =>
      intro i hi hik hd hk
      rw [nmsLoopHeap, h]
  | case2 heap dref kref t current rest h heap1 heap2 filtered ih =>
      intro i hi hik hd hk
      rw [nmsLoopHeap, h]
      dsimp only
      have hlen1 : heap1.length = heap.length := List.length_set _ _ _
      have hlen2 : heap2.length = heap.length := by
        rw [List.length_set, hlen1]
      rw [ih i (by omega) hik (by simp) (by simp; omega)]
      rw [hgetD_append_left _ _ (by omega : i < heap2.length)]
      show ((heap.set dref rest).set kref
          ((heap.set dref rest).getD kref [] ++ [current])).getD i [] = heap.getD i []
      rw [hgetD_set_ne _ (Ne.symm hik), hgetD_set_ne _ (by omega : dref ≠ i)]

/-- At return, the `keep` object holds exactly its previous contents followed
by the functional greedy loop applied to the current `detections` object. -/
theorem nmsLoopHeap_keep :
    ∀ (heap : Heap) (dref kref : ℕ) (t : ℚ),
      kref ≠ dref → kref < heap.length → dref < heap.length →
      (nmsLoopHeap heap dref kref t).getD kref [] =
        heap.getD kref [] ++ nmsLoop (heap.getD dref []) t := by
  intro heap dref kref t
  induction heap, dref, kref, t using nmsLoopHeap.induct with
  | case1 heap dref kref t h =>
      intro hkd hk hd
      rw [nmsLoopHeap, h, nmsLoop]
      simp
  | case2 heap dref kref t current rest h heap1 heap2 filtered ih =>
      intro hkd hk hd
      have hlen1 : heap1.length = List.length heap := List.length_set _ _ _
      have hlen2 : heap2.length = List.length heap := by
        rw [List.length_set, hlen1]
      rw [nmsLoopHeap, h]
      dsimp only
      rw [ih (by omega) (by simp; omega) (by simp)]
      rw [hgetD_append_cell]
      rw [hgetD_append_left _ _ (by omega : kref < heap2.length)]
      have e2 : heap2.getD kref [] = heap.getD kref [] ++ [current] := by
        show (heap1.set kref (heap1.getD kref [] ++ [current])).getD kref [] =
          heap.getD kref [] ++ [current]
        rw [hgetD_set_self _ (by omega : kref < heap1.length)]
        rw [hgetD_set_ne _ (by omega : dref ≠ kref)]
      rw [e2, nmsLoop]
      simp

/-- C10: `nms` does not mutate its argument (nor any other pre-existing list
object): every heap cell that existed before the call — in particular the
argument — holds the same list afterwards, so the input keeps its length,
order and contents; the value returned is the functional `nms` of the
argument's contents, built in freshly allocated cells. -/
theorem C10_nms_no_mutation (heap : Heap) (argRef : ℕ) (t : ℚ)
    (harg : argRef < heap.length) :
    (∀ i, i < heap.length → (nmsHeap heap argRef t).2.getD i [] = heap.getD i []) ∧
    (nmsHeap heap argRef t).2.getD argRef [] = heap.getD argRef [] ∧
    (nmsHeap heap argRef t).1 = nms (heap.getD argRef []) t := by
  by_cases hlen : (heap.getD argRef []).length = 0
  · have e : nmsHeap heap argRef t = ([], heap) := by
      rw [nmsHeap]
      dsimp only
      rw [if_pos hlen]
    rw [e]
    exact ⟨fun i _ => rfl, rfl, by rw [nms, if_pos hlen]⟩
  · rw [nmsHeap]
    simp only [hlen, if_neg, if_false]
    have frame : ∀ i, i < heap.length →
        (nmsLoopHeap ((heap ++ [sortByConfDesc (heap.getD argRef [])]) ++ [[]])
          heap.length (heap ++ [sortByConfDesc (heap.getD argRef [])]).length t).getD i [] =
        heap.getD i [] := by
      intro i hi
      rw [nmsLoopHeap_frame _ _ _ _ i hi (by simp; omega) (by simp) (by simp)]
      rw [hgetD_append_left _ _ (by simp; omega : i <
        (heap ++ [sortByConfDesc (heap.getD argRef [])]).length)]
      rw [hgetD_append_left _ _ hi]
    refine ⟨frame, frame argRef harg, ?_⟩
    rw [nmsLoopHeap_keep _ _ _ _ (by simp) (by simp) (by simp)]
    rw [hgetD_append_cell]
    rw [hgetD_append_left _ _ (by simp : heap.length <
      (heap ++ [sortByConfDesc (heap.getD argRef [])]).length)]
    rw [hgetD_append_cell]
    rw [nms, if_neg hlen]
    simp

/-- Witness for C10 at a one-cell heap holding a single detection. -/
theorem C10_nms_no_mutation_witness :
    (∀ i, i < ([[Detection.mk ⟨0, 0, 1, 1⟩ 1 []]] : Heap).length →
      (nmsHeap [[Detection.mk ⟨0, 0, 1, 1⟩ 1 []]] 0 1).2.getD i [] =
        ([[Detection.mk ⟨0, 0, 1, 1⟩ 1 []]] : Heap).getD i []) ∧
    (nmsHeap [[Detection.mk ⟨0, 0, 1, 1⟩ 1 []]] 0 1).2.getD 0 [] =
      ([[Detection.mk ⟨0, 0, 1, 1⟩ 1 []]] : Heap).getD 0 [] ∧
    (nmsHeap [[Detection.mk ⟨0, 0, 1, 1⟩ 1 []]] 0 1).1 =
      nms (([[Detection.mk ⟨0, 0, 1, 1⟩ 1 []]] : Heap).getD 0 []) 1 :=
  C10_nms_no_mutation [[Detection.mk ⟨0, 0, 1, 1⟩ 1 []]] 0 1 (by decide)

end PyHeap

namespace FaceDetector

theorem fdiv_facts (a : ℤ) (ha : 0 ≤ a) (ha' : a ≤ 640) :
    0 ≤ Int.fdiv (640 - a) 2 ∧ 2 * Int.fdiv (640 - a) 2 ≤ 640 - a ∧
      640 - a ≤ 2 * Int.fdiv (640 - a) 2 + 1 := by
  rw [Int.fdiv_eq_ediv _ (by norm_num)]
  omega

theorem floor_scaled_bounds (h w : ℕ) (hh : 1 ≤ h) :
    0 ≤ ⌊(w : ℚ) * ((640 : ℚ) / ((max h w : ℕ) : ℚ))⌋ ∧
      ⌊(w : ℚ) * ((640 : ℚ) / ((max h w : ℕ) : ℚ))⌋ ≤ 640 := by
  have hM : (0 : ℚ) < ((max h w : ℕ) : ℚ) := by
    have : 0 < max h w := lt_of_lt_of_le hh (Nat.le_max_left h w)
    exact_mod_cast this
  constructor
  · exact Int.floor_nonneg.mpr
      (mul_nonneg (Nat.cast_nonneg w) (le_of_lt (div_pos (by norm_num) hM)))
  · have hq : (w : ℚ) * ((640 : ℚ) / ((max h w : ℕ) : ℚ)) ≤ 640 := by
      rw [mul_div_assoc']
      rw [div_le_iff₀ hM]
      have hwM : (w : ℚ) ≤ ((max h w : ℕ) : ℚ) := by exact_mod_cast Nat.le_max_right h w
      nlinarith
    have := Int.floor_mono hq
    simpa using this

/-- Numeric facts about the `transform_info` produced by `preprocess` for a
nonempty image: positive scale, nonnegative offsets and resized extents, the
two-sided centering bounds `639 ≤ 2·offset + extent ≤ 640`, and
`extent ≤ dim · scale` (the resize floors). -/
theorem preprocess_facts (h w : ℕ) (hh : 1 ≤ h) (hw : 1 ≤ w) :
    (preprocess h w).scale = 640 / ((max h w : ℕ) : ℚ) ∧
    0 < (preprocess h w).scale ∧
    0 ≤ (preprocess h w).xOffset ∧ 0 ≤ (preprocess h w).yOffset ∧
    0 ≤ (preprocess h w).resizedWidth ∧ 0 ≤ (preprocess h w).resizedHeight ∧
    2 * (preprocess h w).xOffset + (preprocess h w).resizedWidth ≤ 640 ∧
    639 ≤ 2 * (preprocess h w).xOffset + (preprocess h w).resizedWidth ∧
    2 * (preprocess h w).yOffset + (preprocess h w).resizedHeight ≤ 640 ∧
    639 ≤ 2 * (preprocess h w).yOffset + (preprocess h w).resizedHeight ∧
    (preprocess h w).resizedWidth ≤ (w : ℚ) * (preprocess h w).scale ∧
    (preprocess h w).resizedHeight ≤ (h : ℚ) * (preprocess h w).scale ∧
    (preprocess h w).originalWidth = (w : ℚ) ∧
    (preprocess h w).originalHeight = (h : ℚ) := by
  have hM : (0 : ℚ) < ((max h w : ℕ) : ℚ) := by
    have : 0 < max h w := lt_of_lt_of_le hh (Nat.le_max_left h w)
    exact_mod_cast this
  have hwB := floor_scaled_bounds h w hh
  have hhB : 0 ≤ ⌊(h : ℚ) * ((640 : ℚ) / ((max h w : ℕ) : ℚ))⌋ ∧
      ⌊(h : ℚ) * ((640 : ℚ) / ((max h w : ℕ) : ℚ))⌋ ≤ 640 := by
    have := floor_scaled_bounds w h hw
    rwa [Nat.max_comm w h] at this
  have hfdw := fdiv_facts _ hwB.1 hwB.2
  have hfdh := fdiv_facts _ hhB.1 hhB.2
  have hscale : (preprocess h w).scale = 640 / ((max h w : ℕ) : ℚ) := by
    simp only [preprocess]
    norm_num
  refine ⟨hscale, hscale ▸ div_pos (by norm_num) hM,
    ?_, ?_, ?_, ?_, ?_, ?_, ?_, ?_, ?_, ?_, ?_, ?_⟩ <;> simp only [preprocess]
  · exact_mod_cast hfdw.1
  · exact_mod_cast hfdh.1
  · exact_mod_cast hwB.1
  · exact_mod_cast hhB.1
  · exact_mod_cast (by omega :
      2 * Int.fdiv (640 - ⌊(w : ℚ) * ((640 : ℚ) / ((max h w : ℕ) : ℚ))⌋) 2 +
        ⌊(w : ℚ) * ((640 : ℚ) / ((max h w : ℕ) : ℚ))⌋ ≤ 640)
  · exact_mod_cast (by omega : (639 : ℤ) ≤
      2 * Int.fdiv (640 - ⌊(w : ℚ) * ((640 : ℚ) / ((max h w : ℕ) : ℚ))⌋) 2 +
        ⌊(w : ℚ) * ((640 : ℚ) / ((max h w : ℕ) : ℚ))⌋)
  · exact_mod_cast (by omega :
      2 * Int.fdiv (640 - ⌊(h : ℚ) * ((640 : ℚ) / ((max h w : ℕ) : ℚ))⌋) 2 +
        ⌊(h : ℚ) * ((640 : ℚ) / ((max h w : ℕ) : ℚ))⌋ ≤ 640)
  · exact_mod_cast (by omega : (639 : ℤ) ≤
      2 * Int.fdiv (640 - ⌊(h : ℚ) * ((640 : ℚ) / ((max h w : ℕ) : ℚ))⌋) 2 +
        ⌊(h : ℚ) * ((640 : ℚ) / ((max h w : ℕ) : ℚ))⌋)
  · exact_mod_cast Int.floor_le _
  · exact_mod_cast Int.floor_le _

/-- C5 (amended): for every image with `H, W ≥ 1`,
`scale = 640 / max(W, H)`, both offsets are nonnegative, and the offsets plus
resized extents are *at most* 640 (the claim's equalities
`x_offset + resized_width = 640` and `y_offset + resized_height = 640` do not
hold — the offset is only half of the padding — see the counterexample; the
sharp two-sided form is `639 ≤ 2·offset + extent ≤ 640`). -/
theorem C5_preprocess_invariants (h w : ℕ) (hh : 1 ≤ h) (hw : 1 ≤ w) :
    (preprocess h w).scale = 640 / ((max w h : ℕ) : ℚ) ∧
    0 ≤ (preprocess h w).xOffset ∧ 0 ≤ (preprocess h w).yOffset ∧
    (preprocess h w).xOffset + (preprocess h w).resizedWidth ≤ 640 ∧
    (preprocess h w).yOffset + (preprocess h w).resizedHeight ≤ 640 ∧
    639 ≤ 2 * (preprocess h w).xOffset + (preprocess h w).resizedWidth ∧
    2 * (preprocess h w).xOffset + (preprocess h w).resizedWidth ≤ 640 ∧
    639 ≤ 2 * (preprocess h w).yOffset + (preprocess h w).resizedHeight ∧
    2 * (preprocess h w).yOffset + (preprocess h w).resizedHeight ≤ 640 := by
  obtain ⟨hs, _, hx0, hy0, hw0, hh0, hx2, hx3, hy2, hy3, _, _, _, _⟩ :=
    preprocess_facts h w hh hw
  refine ⟨?_, hx0, hy0, by linarith, by linarith, hx3, hx2, hy3, hy2⟩
  rw [hs, Nat.max_comm]

/-- Witness for C5 at the concrete image `H = 100, W = 640`. -/
theorem C5_preprocess_invariants_witness :
    (preprocess 100 640).scale = 640 / ((max 640 100 : ℕ) : ℚ) ∧
    0 ≤ (preprocess 100 640).xOffset ∧ 0 ≤ (preprocess 100 640).yOffset ∧
    (preprocess 100 640).xOffset + (preprocess 100 640).resizedWidth ≤ 640 ∧
    (preprocess 100 640).yOffset + (preprocess 100 640).resizedHeight ≤ 640 ∧
    639 ≤ 2 * (preprocess 100 640).xOffset + (preprocess 100 640).resizedWidth ∧
    2 * (preprocess 100 640).xOffset + (preprocess 100 640).resizedWidth ≤ 640 ∧
    639 ≤ 2 * (preprocess 100 640).yOffset + (preprocess 100 640).resizedHeight ∧
    2 * (preprocess 100 640).yOffset + (preprocess 100 640).resizedHeight ≤ 640 :=
  C5_preprocess_invariants 100 640 (by norm_num) (by norm_num)

/-- Counterexample to C5 as stated: at `H = 100, W = 640` (scale exactly 1),
`y_offset + resized_height = 270 + 100 = 370 ≠ 640`. -/
theorem C5_counterexample :
    (preprocess 100 640).yOffset + (preprocess 100 640).resizedHeight ≠ 640 := by
  have h1 : (preprocess 100 640).resizedHeight = 100 := by
    simp only [preprocess]
    norm_num
  have h2 : (preprocess 100 640).yOffset = 270 := by
    simp only [preprocess]
    rw [Int.fdiv_eq_ediv _ (by norm_num)]
    norm_num
  rw [h1, h2]
  norm_num

theorem transform_exact_roundtrip (t : TransformInfo) (x y ow oh : ℚ)
    (hs : 0 < t.scale)
    (hx0 : 0 ≤ x * t.scale) (hx1 : x * t.scale ≤ t.resizedWidth)
    (hx2 : 0 ≤ x) (hx3 : x ≤ ow)
    (hy0 : 0 ≤ y * t.scale) (hy1 : y * t.scale ≤ t.resizedHeight)
    (hy2 : 0 ≤ y) (hy3 : y ≤ oh) :
    _transform_coords_to_original (x * t.scale + t.xOffset) (y * t.scale + t.yOffset) t ow oh
      = (x, y) := by
  simp only [_transform_coords_to_original]
  rw [show x * t.scale + t.xOffset - t.xOffset = x * t.scale from by ring,
    show y * t.scale + t.yOffset - t.yOffset = y * t.scale from by ring,
    min_eq_left hx1, min_eq_left hy1, max_eq_right hx0, max_eq_right hy0,
    mul_div_cancel_right₀ _ hs.ne', mul_div_cancel_right₀ _ hs.ne',
    min_eq_left hx3, min_eq_left hy3, max_eq_right hx2, max_eq_right hy2]

theorem corners_roundtrip (h w : ℕ) (hh : 1 ≤ h) (hw : 1 ≤ w)
    (hxw : (w : ℚ) * (preprocess h w).scale = (preprocess h w).resizedWidth)
    (hxh : (h : ℚ) * (preprocess h w).scale = (preprocess h w).resizedHeight) :
    _transform_coords_to_original 0 0 (preprocess h w) w h = (0, 0) ∧
    _transform_coords_to_original 640 640 (preprocess h w) w h = ((w : ℚ), (h : ℚ)) := by
  obtain ⟨hs, hpos, hx0, hy0, hw0, hh0, hx2, hx3, hy2, hy3, hwle, hhle, how, hoh⟩ :=
    preprocess_facts h w hh hw
  have hwc : (0 : ℚ) ≤ (w : ℚ) := Nat.cast_nonneg w
  have hhc : (0 : ℚ) ≤ (h : ℚ) := Nat.cast_nonneg h
  constructor
  · simp only [_transform_coords_to_original]
    rw [zero_sub, zero_sub,
      min_eq_left (by linarith : -(preprocess h w).xOffset ≤ (preprocess h w).resizedWidth),
      min_eq_left (by linarith : -(preprocess h w).yOffset ≤ (preprocess h w).resizedHeight),
      max_eq_left (by linarith : -(preprocess h w).xOffset ≤ 0),
      max_eq_left (by linarith : -(preprocess h w).yOffset ≤ 0),
      zero_div, min_eq_left hwc, min_eq_left hhc]
    simp
  · simp only [_transform_coords_to_original]
    rw [min_eq_right
        (by linarith : (preprocess h w).resizedWidth ≤ 640 - (preprocess h w).xOffset),
      min_eq_right
        (by linarith : (preprocess h w).resizedHeight ≤ 640 - (preprocess h w).yOffset),
      max_eq_right hw0, max_eq_right hh0, ← hxw, ← hxh,
      mul_div_cancel_right₀ _ hpos.ne', mul_div_cancel_right₀ _ hpos.ne',
      min_self, min_self, max_eq_right hwc, max_eq_right hhc]

/-- C6 (amended): (i) a point pushed through the forward letterbox map
(`· scale`, `+ offset`) and then remapped comes back exactly whenever none of
the four clamps fires; (ii) the four canvas corners remap to the original
corners `(0,0)` and `(W,H)` — not merely when `scale · max(H,W) = 640` holds
exactly (that product is *always* exactly 640 in exact arithmetic, yet the
corner property fails, see the counterexample), but when additionally the
resized extents are exact, i.e. `W · scale` and `H · scale` are integers. -/
theorem C6_remap_roundtrip :
    (∀ (t : TransformInfo) (x y ow oh : ℚ), 0 < t.scale →
      0 ≤ x * t.scale → x * t.scale ≤ t.resizedWidth → 0 ≤ x → x ≤ ow →
      0 ≤ y * t.scale → y * t.scale ≤ t.resizedHeight → 0 ≤ y → y ≤ oh →
      _transform_coords_to_original (x * t.scale + t.xOffset) (y * t.scale + t.yOffset)
        t ow oh = (x, y)) ∧
    (∀ (h w : ℕ), 1 ≤ h → 1 ≤ w →
      (w : ℚ) * (preprocess h w).scale = (preprocess h w).resizedWidth →
      (h : ℚ) * (preprocess h w).scale = (preprocess h w).resizedHeight →
      _transform_coords_to_original 0 0 (preprocess h w) w h = (0, 0) ∧
      _transform_coords_to_original 640 640 (preprocess h w) w h = ((w : ℚ), (h : ℚ))) :=
  ⟨fun t x y ow oh hs hx0 hx1 hx2 hx3 hy0 hy1 hy2 hy3 =>
      transform_exact_roundtrip t x y ow oh hs hx0 hx1 hx2 hx3 hy0 hy1 hy2 hy3,
    fun h w hh hw hxw hxh => corners_roundtrip h w hh hw hxw hxh⟩

/-- Witness for C6 on the identity transform of a 640×640 image: the point
`(100, 200)` round-trips and the corner `(640, 640)` maps to `(640, 640)`. -/
theorem C6_remap_roundtrip_witness :
    _transform_coords_to_original
      (100 * (preprocess 640 640).scale + (preprocess 640 640).xOffset)
      (200 * (preprocess 640 640).scale + (preprocess 640 640).yOffset)
      (preprocess 640 640) 640 640 = (100, 200) ∧
    _transform_coords_to_original 640 640 (preprocess 640 640) 640 640
      = (((640 : ℕ) : ℚ), ((640 : ℕ) : ℚ)) :=
  ⟨C6_remap_roundtrip.1 (preprocess 640 640) 100 200 640 640
      (by simp only [preprocess]; norm_num)
      (by simp only [preprocess]; norm_num)
      (by simp only [preprocess]; norm_num)
      (by norm_num) (by norm_num)
      (by simp only [preprocess]; norm_num)
      (by simp only [preprocess]; norm_num)
      (by norm_num) (by norm_num),
    (C6_remap_roundtrip.2 640 640 (by norm_num) (by norm_num)
      (by simp only [preprocess]; norm_num)
      (by simp only [preprocess]; norm_num)).2⟩

/-- Counterexample to C6 as stated: for the `641 × 100` image the claim's
hypothesis `scale · max(H,W) = 640` holds exactly, yet remapping the canvas
corner `(640, 640)` yields `(63459/640, 641) ≠ (W, H) = (100, 641)` because
the resized width `⌊100 · 640/641⌋ = 99` is not exact. -/
theorem C6_counterexample :
    (preprocess 641 100).scale * ((max 641 100 : ℕ) : ℚ) = 640 ∧
    _transform_coords_to_original 640 640 (preprocess 641 100) 100 641
      ≠ ((100 : ℚ), (641 : ℚ)) := by
  have hsc : (preprocess 641 100).scale = 640 / 641 := by
    simp only [preprocess]; norm_num
  constructor
  · rw [hsc]; norm_num
  · have hxo : (preprocess 641 100).xOffset = 270 := by
      simp only [preprocess]
      rw [Int.fdiv_eq_ediv _ (by norm_num)]
      norm_num
    have hyo : (preprocess 641 100).yOffset = 0 := by
      simp only [preprocess]
      rw [Int.fdiv_eq_ediv _ (by norm_num)]
      norm_num
    have hrw : (preprocess 641 100).resizedWidth = 99 := by
      simp only [preprocess]; norm_num
    have hrh : (preprocess 641 100).resizedHeight = 640 := by
      simp only [preprocess]; norm_num
    simp only [_transform_coords_to_original, hsc, hxo, hyo, hrw, hrh]
    intro heq
    have := congrArg Prod.fst heq
    simp only at this
    norm_num at this

theorem getD_take_drop (l : List ℚ) (n j k : ℕ) (hj : j < k) :
    ((l.drop n).take k).getD j 0 = l.getD (n + j) 0 := by
  simp [List.getD_eq_getElem?_getD, List.getElem?_take, List.getElem?_drop, hj]

theorem preprocess_640_640 : preprocess 640 640 = ⟨640, 640, 1, 0, 0, 640, 640⟩ := by
  simp only [preprocess]
  rw [Int.fdiv_eq_ediv _ (by norm_num)]
  norm_num

theorem process_scale_scenario_eq :
    _process_scale_detections 0 [(1, ⟨[1, 1], [9/10]⟩)] [(1, ⟨[1, 4], [1, 1, 1, 1]⟩)]
        [(1, ⟨[1, 10], [0, 0, 0, 0, 0, 0, 0, 0, 0, 0]⟩)] [8] 1 (preprocess 640 640)
        640 640 (1/2)
      = [Detection.mk ⟨0, 0, 12, 12⟩ (9/10) [(4, 4), (4, 4), (4, 4), (4, 4), (4, 4)]] := by
  rw [preprocess_640_640]
  simp only [_process_scale_detections, List.getD_cons_zero, List.length_cons,
    List.length_nil, List.range_succ, List.range_zero, List.nil_append,
    List.filterMap_cons, List.filterMap_nil]
  rw [if_pos (by norm_num : (1:ℚ)/2 ≤ (9:ℚ)/10)]
  simp only [List.cons.injEq, and_true, Detection.mk.injEq, Box.mk.injEq]
  norm_num [_decode_bbox, _decode_landmarks, _transform_coords_to_original,
    min_def, max_def, List.range_succ]

theorem process_scale_scenario_zero_eq :
    _process_scale_detections 0 [(1, ⟨[1, 1], [9/10]⟩)] [(1, ⟨[1, 4], [0, 0, 0, 0]⟩)]
        [(1, ⟨[1, 10], [0, 0, 0, 0, 0, 0, 0, 0, 0, 0]⟩)] [8] 1 (preprocess 640 640)
        640 640 (1/2)
      = [Detection.mk ⟨4, 4, 4, 4⟩ (9/10) [(4, 4), (4, 4), (4, 4), (4, 4), (4, 4)]] := by
  rw [preprocess_640_640]
  simp only [_process_scale_detections, List.getD_cons_zero, List.length_cons,
    List.length_nil, List.range_succ, List.range_zero, List.nil_append,
    List.filterMap_cons, List.filterMap_nil]
  rw [if_pos (by norm_num : (1:ℚ)/2 ≤ (9:ℚ)/10)]
  simp only [List.cons.injEq, and_true, Detection.mk.injEq, Box.mk.injEq]
  norm_num [_decode_bbox, _decode_landmarks, _transform_coords_to_original,
    min_def, max_def, List.range_succ]

/-- C2: (i) for every kept anchor index `i` the decoder emits a detection
whose confidence is the score at `i` and whose box is the remap of
`(cx - dx1·s, cy - dy1·s, cx + dx2·s, cy + dy2·s)` with anchor centre
`cx = (col + ½)·s`, `cy = (row + ½)·s`, `col = (i / anchors) % (640/s)`,
`row = (i / anchors) / (640/s)` and `(dx1,dy1,dx2,dy2)` the four regression
values of row `i`; (ii) the single synthetic anchor at grid cell `(0,0)`,
stride 8, box regression `(1,1,1,1)`, zero landmark offsets and confidence
`0.9 ≥ 0.5` on the identity transform of a 640×640 image yields exactly one
detection, with box clamped to `(0,0,12,12)` and confidence `0.9`. -/
theorem C2_decode_anchor :
    (∀ (scaleIdx : ℕ) (scoresOut bboxesOut kpsOut : List (ℕ × NpArray))
      (strides : List ℕ) (numAnchors : ℕ) (t : TransformInfo) (ow oh conf : ℚ) (i : ℕ),
      i < (scoresOut.getD scaleIdx (0, ⟨[], []⟩)).2.data.length →
      conf ≤ (scoresOut.getD scaleIdx (0, ⟨[], []⟩)).2.data.getD i 0 →
      ∀ s cx cy dx1 dy1 dx2 dy2 : ℚ,
      s = ((strides.getD scaleIdx 0 : ℕ) : ℚ) →
      cx = (((i / numAnchors % (640 / strides.getD scaleIdx 0) : ℕ) : ℚ) + 1/2) * s →
      cy = (((i / numAnchors / (640 / strides.getD scaleIdx 0) : ℕ) : ℚ) + 1/2) * s →
      dx1 = (bboxesOut.getD scaleIdx (0, ⟨[], []⟩)).2.data.getD (4 * i) 0 →
      dy1 = (bboxesOut.getD scaleIdx (0, ⟨[], []⟩)).2.data.getD (4 * i + 1) 0 →
      dx2 = (bboxesOut.getD scaleIdx (0, ⟨[], []⟩)).2.data.getD (4 * i + 2) 0 →
      dy2 = (bboxesOut.getD scaleIdx (0, ⟨[], []⟩)).2.data.getD (4 * i + 3) 0 →
      Detection.mk
          (Box.mk
            (_transform_coords_to_original (cx - dx1 * s) (cy - dy1 * s) t ow oh).1
            (_transform_coords_to_original (cx - dx1 * s) (cy - dy1 * s) t ow oh).2
            (_transform_coords_to_original (cx + dx2 * s) (cy + dy2 * s) t ow oh).1
            (_transform_coords_to_original (cx + dx2 * s) (cy + dy2 * s) t ow oh).2)
          ((scoresOut.getD scaleIdx (0, ⟨[], []⟩)).2.data.getD i 0)
          (_decode_landmarks
            (((kpsOut.getD scaleIdx (0, ⟨[], []⟩)).2.data.drop (10 * i)).take 10)
            cx cy s t ow oh)
          ∈ _process_scale_detections scaleIdx scoresOut bboxesOut kpsOut strides
              numAnchors t ow oh conf) ∧
    _process_scale_detections 0 [(1, ⟨[1, 1], [9/10]⟩)] [(1, ⟨[1, 4], [1, 1, 1, 1]⟩)]
        [(1, ⟨[1, 10], [0, 0, 0, 0, 0, 0, 0, 0, 0, 0]⟩)] [8] 1 (preprocess 640 640)
        640 640 (1/2)
      = [Detection.mk ⟨0, 0, 12, 12⟩ (9/10) [(4, 4), (4, 4), (4, 4), (4, 4), (4, 4)]] := by
  constructor
  · intro scaleIdx scoresOut bboxesOut kpsOut strides numAnchors t ow oh conf i hi hconf
    intro s cx cy dx1 dy1 dx2 dy2 hs hcx hcy hdx1 hdy1 hdx2 hdy2
    subst hs hcx hcy hdx1 hdy1 hdx2 hdy2
    rw [_process_scale_detections]
    refine List.mem_filterMap.mpr ⟨i, List.mem_range.mpr hi, ?_⟩
    rw [if_pos hconf]
    simp only [_decode_bbox,
      getD_take_drop _ (4 * i) 0 4 (by norm_num),
      getD_take_drop _ (4 * i) 1 4 (by norm_num),
      getD_take_drop _ (4 * i) 2 4 (by norm_num),
      getD_take_drop _ (4 * i) 3 4 (by norm_num), Nat.add_zero]
  · exact process_scale_scenario_eq

theorem determine_topology_spec (scoresOut : List (ℕ × NpArray)) (hne : scoresOut ≠ []) :
    (scoresOut.length = 3 → (_determine_model_topology scoresOut).1 = [8, 16, 32]) ∧
    (scoresOut.length = 5 → (_determine_model_topology scoresOut).1 = [8, 16, 32, 64, 128]) ∧
    (_determine_model_topology scoresOut).1 =
      (List.range scoresOut.length).map (fun i => 2 ^ i * 8) ∧
    (_determine_model_topology scoresOut).2 =
      max 1 ((scoresOut.headD (0, ⟨[], []⟩)).1 / ((640 / 8) * (640 / 8))) := by
  obtain ⟨a, tl, rfl⟩ : ∃ a tl, scoresOut = a :: tl := by
    cases scoresOut with
    | nil => exact absurd rfl hne
    | cons a tl => exact ⟨a, tl, rfl⟩
  simp only [_determine_model_topology]
  split_ifs with h3 h5
  · refine ⟨fun _ => rfl, fun h => by omega, ?_, ?_⟩
    · rw [h3]; decide
    · norm_num
  · refine ⟨fun h => by omega, fun _ => rfl, ?_, ?_⟩
    · rw [h5]; decide
    · norm_num
  · refine ⟨fun h => absurd h h3, fun h => absurd h h5, rfl, ?_⟩
    simp only [List.length_cons, List.range_succ_eq_map, List.map_cons, List.headD_cons]
    norm_num

theorem classify_scenario_eq :
    _classify_and_sort_outputs
      [⟨[6400, 1], []⟩, ⟨[6400, 4], []⟩, ⟨[6400, 10], []⟩,
       ⟨[1600, 1], []⟩, ⟨[1600, 4], []⟩, ⟨[1600, 10], []⟩,
       ⟨[400, 1], []⟩, ⟨[400, 4], []⟩, ⟨[400, 10], []⟩] =
    ([(6400, ⟨[6400, 1], []⟩), (1600, ⟨[1600, 1], []⟩), (400, ⟨[400, 1], []⟩)],
     [(6400, ⟨[6400, 4], []⟩), (1600, ⟨[1600, 4], []⟩), (400, ⟨[400, 4], []⟩)],
     [(6400, ⟨[6400, 10], []⟩), (1600, ⟨[1600, 10], []⟩), (400, ⟨[400, 10], []⟩)]) := by
  simp only [_classify_and_sort_outputs, squeezeArr]
  norm_num [List.getLastD_cons, List.getLastD]
  refine ⟨?_, ?_, ?_⟩ <;> exact List.mergeSort_of_sorted (by decide)

/-- C3: (i) for every nonempty classified output set, the stride table is
`[8,16,32]` for 3 score groups, `[8,16,32,64,128]` for 5, and in general the
strides double starting at 8 (`2^i·8`); anchors-per-position is the largest
group's anchor count divided by `(640/stride₀)²` (Nat floor division), with a
minimum of 1; (ii) the three shape triples `(6400,·),(1600,·),(400,·)`
classify into groups sorted `[6400,1600,400]` with strides `[8,16,32]`. -/
theorem C3_topology_inference :
    (∀ scoresOut : List (ℕ × NpArray), scoresOut ≠ [] →
      (scoresOut.length = 3 → (_determine_model_topology scoresOut).1 = [8, 16, 32]) ∧
      (scoresOut.length = 5 →
        (_determine_model_topology scoresOut).1 = [8, 16, 32, 64, 128]) ∧
      (_determine_model_topology scoresOut).1 =
        (List.range scoresOut.length).map (fun i => 2 ^ i * 8) ∧
      (_determine_model_topology scoresOut).2 =
        max 1 ((scoresOut.headD (0, ⟨[], []⟩)).1 / ((640 / 8) * (640 / 8)))) ∧
    ((_classify_and_sort_outputs
        [⟨[6400, 1], []⟩, ⟨[6400, 4], []⟩, ⟨[6400, 10], []⟩,
         ⟨[1600, 1], []⟩, ⟨[1600, 4], []⟩, ⟨[1600, 10], []⟩,
         ⟨[400, 1], []⟩, ⟨[400, 4], []⟩, ⟨[400, 10], []⟩]).1.map Prod.fst
        = [6400, 1600, 400] ∧
     (_classify_and_sort_outputs
        [⟨[6400, 1], []⟩, ⟨[6400, 4], []⟩, ⟨[6400, 10], []⟩,
         ⟨[1600, 1], []⟩, ⟨[1600, 4], []⟩, ⟨[1600, 10], []⟩,
         ⟨[400, 1], []⟩, ⟨[400, 4], []⟩, ⟨[400, 10], []⟩]).2.1.map Prod.fst
        = [6400, 1600, 400] ∧
     (_classify_and_sort_outputs
        [⟨[6400, 1], []⟩, ⟨[6400, 4], []⟩, ⟨[6400, 10], []⟩,
         ⟨[1600, 1], []⟩, ⟨[1600, 4], []⟩, ⟨[1600, 10], []⟩,
         ⟨[400, 1], []⟩, ⟨[400, 4], []⟩, ⟨[400, 10], []⟩]).2.2.map Prod.fst
        = [6400, 1600, 400] ∧
     (_determine_model_topology
        (_classify_and_sort_outputs
          [⟨[6400, 1], []⟩, ⟨[6400, 4], []⟩, ⟨[6400, 10], []⟩,
           ⟨[1600, 1], []⟩, ⟨[1600, 4], []⟩, ⟨[1600, 10], []⟩,
           ⟨[400, 1], []⟩, ⟨[400, 4], []⟩, ⟨[400, 10], []⟩]).1).1 = [8, 16, 32]) := by
  refine ⟨determine_topology_spec, ?_⟩
  rw [classify_scenario_eq]
  exact ⟨rfl, rfl, rfl, by decide⟩

/-- Witness for C3 at a single score group of 6400 anchors. -/
theorem C3_topology_inference_witness :
    (_determine_model_topology [((6400 : ℕ), (⟨[6400, 1], []⟩ : NpArray))]).1 =
      (List.range (List.length [((6400 : ℕ), (⟨[6400, 1], []⟩ : NpArray))])).map
        (fun i => 2 ^ i * 8) ∧
    (_determine_model_topology [((6400 : ℕ), (⟨[6400, 1], []⟩ : NpArray))]).2 =
      max 1 (([((6400 : ℕ), (⟨[6400, 1], []⟩ : NpArray))].headD (0, ⟨[], []⟩)).1 /
        ((640 / 8) * (640 / 8))) :=
  ⟨(C3_topology_inference.1 [((6400 : ℕ), (⟨[6400, 1], []⟩ : NpArray))]
      (by decide)).2.2.1,
   (C3_topology_inference.1 [((6400 : ℕ), (⟨[6400, 1], []⟩ : NpArray))]
      (by decide)).2.2.2⟩

/-- C4: whenever the classified score, box and landmark groups have unequal
counts, `detect` aborts with the empty detection list — it does not guess a
pairing. -/
theorem C4_detect_mismatch_empty :
    ∀ (h w : ℕ) (outputsList : List NpArray) (confT nmsT : ℚ),
      ¬((_classify_and_sort_outputs outputsList).1.length =
          (_classify_and_sort_outputs outputsList).2.1.length ∧
        (_classify_and_sort_outputs outputsList).2.1.length =
          (_classify_and_sort_outputs outputsList).2.2.length) →
      detect h w outputsList confT nmsT = Except.ok [] := by
  intro h w outputsList confT nmsT hmis
  simp only [detect]
  rw [if_pos hmis]

/-- Witness for C4: one lone score tensor (no box or landmark tensors)
produces groups of sizes 1, 0, 0 and `detect` returns the empty list. -/
theorem C4_detect_mismatch_empty_witness :
    detect 640 640 [⟨[5, 1], [0, 0, 0, 0, 0]⟩] (1/2) (2/5) = Except.ok [] :=
  C4_detect_mismatch_empty 640 640 [⟨[5, 1], [0, 0, 0, 0, 0]⟩] (1/2) (2/5)
    (by simp [_classify_and_sort_outputs, squeezeArr])

/-- Witness for C2's general part: the scenario input at kept index 0, with
`s = 8`, `cx = cy = 4`, regression `(1,1,1,1)`. -/
theorem C2_decode_anchor_witness :
    Detection.mk
      (Box.mk
        (_transform_coords_to_original (4 - 1 * 8) (4 - 1 * 8)
          (preprocess 640 640) 640 640).1
        (_transform_coords_to_original (4 - 1 * 8) (4 - 1 * 8)
          (preprocess 640 640) 640 640).2
        (_transform_coords_to_original (4 + 1 * 8) (4 + 1 * 8)
          (preprocess 640 640) 640 640).1
        (_transform_coords_to_original (4 + 1 * 8) (4 + 1 * 8)
          (preprocess 640 640) 640 640).2)
      ([(9:ℚ)/10].getD 0 0)
      (_decode_landmarks
        (([(0:ℚ), 0, 0, 0, 0, 0, 0, 0, 0, 0].drop (10 * 0)).take 10) 4 4 8
        (preprocess 640 640) 640 640)
      ∈ _process_scale_detections 0 [(1, ⟨[1, 1], [9/10]⟩)] [(1, ⟨[1, 4], [1, 1, 1, 1]⟩)]
          [(1, ⟨[1, 10], [0, 0, 0, 0, 0, 0, 0, 0, 0, 0]⟩)] [8] 1 (preprocess 640 640)
          640 640 (1/2) :=
  C2_decode_anchor.1 0 [(1, ⟨[1, 1], [9/10]⟩)] [(1, ⟨[1, 4], [1, 1, 1, 1]⟩)]
    [(1, ⟨[1, 10], [0, 0, 0, 0, 0, 0, 0, 0, 0, 0]⟩)] [8] 1 (preprocess 640 640)
    640 640 (1/2) 0 (by simp) (by norm_num) 8 4 4 1 1 1 1
    (by norm_num) (by norm_num) (by norm_num) (by norm_num) (by norm_num)
    (by norm_num) (by norm_num)

theorem transform_bounds (x y : ℚ) (t : TransformInfo) (ow oh : ℚ)
    (how : 0 ≤ ow) (hoh : 0 ≤ oh) :
    0 ≤ (_transform_coords_to_original x y t ow oh).1 ∧
    (_transform_coords_to_original x y t ow oh).1 ≤ ow ∧
    0 ≤ (_transform_coords_to_original x y t ow oh).2 ∧
    (_transform_coords_to_original x y t ow oh).2 ≤ oh := by
  simp only [_transform_coords_to_original]
  exact ⟨le_max_left _ _, max_le how (min_le_right _ _),
    le_max_left _ _, max_le hoh (min_le_right _ _)⟩

theorem transform_fst_mono (t : TransformInfo) (ow oh : ℚ) {x x' : ℚ} (y y' : ℚ)
    (hs : 0 < t.scale) (hxx : x ≤ x') :
    (_transform_coords_to_original x y t ow oh).1 ≤
      (_transform_coords_to_original x' y' t ow oh).1 := by
  simp only [_transform_coords_to_original]
  refine max_le_max le_rfl (min_le_min ?_ le_rfl)
  refine (div_le_div_right hs).mpr ?_
  exact max_le_max le_rfl (min_le_min (by linarith) le_rfl)

theorem transform_snd_mono (t : TransformInfo) (ow oh : ℚ) (x x' : ℚ) {y y' : ℚ}
    (hs : 0 < t.scale) (hyy : y ≤ y') :
    (_transform_coords_to_original x y t ow oh).2 ≤
      (_transform_coords_to_original x' y' t ow oh).2 := by
  simp only [_transform_coords_to_original]
  refine max_le_max le_rfl (min_le_min ?_ le_rfl)
  refine (div_le_div_right hs).mpr ?_
  exact max_le_max le_rfl (min_le_min (by linarith) le_rfl)

/-- C9 (amended): the strict invariant `x1 < x2 ∧ y1 < y2` does not hold (see
the counterexample: a zero box regression yields `x1 = x2`).  What holds after
remap-clamping: every emitted box lies inside `[0, ow] × [0, oh]`, and it is
non-degenerate in the weak sense `x1 ≤ x2 ∧ y1 ≤ y2` provided every regression
row has `dx1 + dx2 ≥ 0` and `dy1 + dy2 ≥ 0`. -/
theorem C9_box_order_amended :
    ∀ (scaleIdx : ℕ) (scoresOut bboxesOut kpsOut : List (ℕ × NpArray))
      (strides : List ℕ) (numAnchors : ℕ) (t : TransformInfo) (ow oh conf : ℚ),
      0 < t.scale → 0 ≤ ow → 0 ≤ oh →
      (∀ i : ℕ,
        0 ≤ (bboxesOut.getD scaleIdx (0, ⟨[], []⟩)).2.data.getD (4 * i) 0 +
            (bboxesOut.getD scaleIdx (0, ⟨[], []⟩)).2.data.getD (4 * i + 2) 0 ∧
        0 ≤ (bboxesOut.getD scaleIdx (0, ⟨[], []⟩)).2.data.getD (4 * i + 1) 0 +
            (bboxesOut.getD scaleIdx (0, ⟨[], []⟩)).2.data.getD (4 * i + 3) 0) →
      ∀ det ∈ _process_scale_detections scaleIdx scoresOut bboxesOut kpsOut strides
          numAnchors t ow oh conf,
        (0 ≤ det.bbox.x1 ∧ det.bbox.x1 ≤ ow ∧ 0 ≤ det.bbox.y1 ∧ det.bbox.y1 ≤ oh ∧
         0 ≤ det.bbox.x2 ∧ det.bbox.x2 ≤ ow ∧ 0 ≤ det.bbox.y2 ∧ det.bbox.y2 ≤ oh) ∧
        det.bbox.x1 ≤ det.bbox.x2 ∧ det.bbox.y1 ≤ det.bbox.y2 := by
  intro scaleIdx scoresOut bboxesOut kpsOut strides numAnchors t ow oh conf
    hs how hoh hreg det hdet
  simp only [_process_scale_detections] at hdet
  obtain ⟨i, hi, hfi⟩ := List.mem_filterMap.mp hdet
  by_cases hc : conf ≤ (scoresOut.getD scaleIdx (0, ⟨[], []⟩)).2.data.getD i 0
  · rw [if_pos hc] at hfi
    obtain rfl := (Option.some.inj hfi).symm
    have e0 := getD_take_drop (bboxesOut.getD scaleIdx (0, ⟨[], []⟩)).2.data
      (4 * i) 0 4 (by norm_num)
    have e1 := getD_take_drop (bboxesOut.getD scaleIdx (0, ⟨[], []⟩)).2.data
      (4 * i) 1 4 (by norm_num)
    have e2 := getD_take_drop (bboxesOut.getD scaleIdx (0, ⟨[], []⟩)).2.data
      (4 * i) 2 4 (by norm_num)
    have e3 := getD_take_drop (bboxesOut.getD scaleIdx (0, ⟨[], []⟩)).2.data
      (4 * i) 3 4 (by norm_num)
    have hsn : (0 : ℚ) ≤ ((strides.getD scaleIdx 0 : ℕ) : ℚ) := Nat.cast_nonneg _
    have hb := hreg i
    constructor
    · refine ⟨?_, ?_, ?_, ?_, ?_, ?_, ?_, ?_⟩ <;>
        simp only [_transform_coords_to_original] <;>
        first
          | exact le_max_left _ _
          | exact max_le how (min_le_right _ _)
          | exact max_le hoh (min_le_right _ _)
    constructor
    · dsimp only
      refine transform_fst_mono t ow oh _ _ hs ?_
      simp only [_decode_bbox, e0, e2, Nat.add_zero]
      have hx : 0 ≤ ((bboxesOut.getD scaleIdx (0, ⟨[], []⟩)).2.data.getD (4 * i) 0 +
          (bboxesOut.getD scaleIdx (0, ⟨[], []⟩)).2.data.getD (4 * i + 2) 0) *
          ((strides.getD scaleIdx 0 : ℕ) : ℚ) := mul_nonneg hb.1 hsn
      rw [add_mul] at hx
      linarith
    · dsimp only
      refine transform_snd_mono t ow oh _ _ hs ?_
      simp only [_decode_bbox, e1, e3]
      have hy : 0 ≤ ((bboxesOut.getD scaleIdx (0, ⟨[], []⟩)).2.data.getD (4 * i + 1) 0 +
          (bboxesOut.getD scaleIdx (0, ⟨[], []⟩)).2.data.getD (4 * i + 3) 0) *
          ((strides.getD scaleIdx 0 : ℕ) : ℚ) := mul_nonneg hb.2 hsn
      rw [add_mul] at hy
      linarith
  · rw [if_neg hc] at hfi
    exact absurd hfi (by simp)

/-- Counterexample to C9 as stated: a kept anchor whose box regression is
`(0,0,0,0)` (confidence `0.9 ≥ 0.5`) produces a detection whose remapped box
is `(4, 4, 4, 4)` — `x1 = x2` and `y1 = y2`, not strict inequalities. -/
theorem C9_counterexample :
    (_process_scale_detections 0 [(1, ⟨[1, 1], [9/10]⟩)] [(1, ⟨[1, 4], [0, 0, 0, 0]⟩)]
        [(1, ⟨[1, 10], [0, 0, 0, 0, 0, 0, 0, 0, 0, 0]⟩)] [8] 1 (preprocess 640 640)
        640 640 (1/2)).length = 1 ∧
    ((_process_scale_detections 0 [(1, ⟨[1, 1], [9/10]⟩)] [(1, ⟨[1, 4], [0, 0, 0, 0]⟩)]
        [(1, ⟨[1, 10], [0, 0, 0, 0, 0, 0, 0, 0, 0, 0]⟩)] [8] 1 (preprocess 640 640)
        640 640 (1/2)).getD 0 ⟨⟨0, 0, 0, 0⟩, 0, []⟩).bbox.x1 = 4 ∧
    ((_process_scale_detections 0 [(1, ⟨[1, 1], [9/10]⟩)] [(1, ⟨[1, 4], [0, 0, 0, 0]⟩)]
        [(1, ⟨[1, 10], [0, 0, 0, 0, 0, 0, 0, 0, 0, 0]⟩)] [8] 1 (preprocess 640 640)
        640 640 (1/2)).getD 0 ⟨⟨0, 0, 0, 0⟩, 0, []⟩).bbox.x2 = 4 := by
  rw [process_scale_scenario_zero_eq]
  exact ⟨rfl, rfl, rfl⟩

/-- Witness for C9 (amended) at the scenario input with regression
`(1,1,1,1)`: the emitted detection `(0,0,12,12)` satisfies the bounds and the
weak ordering. -/
theorem C9_box_order_amended_witness :
    (0 ≤ (Detection.mk ⟨0, 0, 12, 12⟩ (9/10)
        [(4, 4), (4, 4), (4, 4), (4, 4), (4, 4)]).bbox.x1 ∧
     (Detection.mk ⟨0, 0, 12, 12⟩ (9/10)
        [(4, 4), (4, 4), (4, 4), (4, 4), (4, 4)]).bbox.x1 ≤ 640 ∧
     0 ≤ (Detection.mk ⟨0, 0, 12, 12⟩ (9/10)
        [(4, 4), (4, 4), (4, 4), (4, 4), (4, 4)]).bbox.y1 ∧
     (Detection.mk ⟨0, 0, 12, 12⟩ (9/10)
        [(4, 4), (4, 4), (4, 4), (4, 4), (4, 4)]).bbox.y1 ≤ 640 ∧
     0 ≤ (Detection.mk ⟨0, 0, 12, 12⟩ (9/10)
        [(4, 4), (4, 4), (4, 4), (4, 4), (4, 4)]).bbox.x2 ∧
     (Detection.mk ⟨0, 0, 12, 12⟩ (9/10)
        [(4, 4), (4, 4), (4, 4), (4, 4), (4, 4)]).bbox.x2 ≤ 640 ∧
     0 ≤ (Detection.mk ⟨0, 0, 12, 12⟩ (9/10)
        [(4, 4), (4, 4), (4, 4), (4, 4), (4, 4)]).bbox.y2 ∧
     (Detection.mk ⟨0, 0, 12, 12⟩ (9/10)
        [(4, 4), (4, 4), (4, 4), (4, 4), (4, 4)]).bbox.y2 ≤ 640) ∧
    (Detection.mk ⟨0, 0, 12, 12⟩ (9/10)
        [(4, 4), (4, 4), (4, 4), (4, 4), (4, 4)]).bbox.x1 ≤
      (Detection.mk ⟨0, 0, 12, 12⟩ (9/10)
        [(4, 4), (4, 4), (4, 4), (4, 4), (4, 4)]).bbox.x2 ∧
    (Detection.mk ⟨0, 0, 12, 12⟩ (9/10)
        [(4, 4), (4, 4), (4, 4), (4, 4), (4, 4)]).bbox.y1 ≤
      (Detection.mk ⟨0, 0, 12, 12⟩ (9/10)
        [(4, 4), (4, 4), (4, 4), (4, 4), (4, 4)]).bbox.y2 :=
  C9_box_order_amended 0 [(1, ⟨[1, 1], [9/10]⟩)] [(1, ⟨[1, 4], [1, 1, 1, 1]⟩)]
    [(1, ⟨[1, 10], [0, 0, 0, 0, 0, 0, 0, 0, 0, 0]⟩)] [8] 1 (preprocess 640 640)
    640 640 (1/2)
    (by rw [preprocess_640_640]; norm_num) (by norm_num) (by norm_num)
    (by
      intro i
      match i with
      | 0 => norm_num
      | j + 1 =>
          simp only [List.getD_cons_zero]
          have hge : ∀ k : ℕ, 4 ≤ k → ([(1 : ℚ), 1, 1, 1].getD k 0) = 0 := by
            intro k hk
            rw [List.getD_eq_getElem?_getD, List.getElem?_eq_none (by simpa using hk)]
            rfl
          rw [hge _ (by omega), hge _ (by omega), hge _ (by omega), hge _ (by omega)]
          norm_num)
    (Detection.mk ⟨0, 0, 12, 12⟩ (9/10) [(4, 4), (4, 4), (4, 4), (4, 4), (4, 4)])
    (by rw [process_scale_scenario_eq]; exact List.mem_singleton_self _)

end FaceDetector

namespace FaceRecognizer

/-- C8: the repository performs no landmark-degeneracy check.  (i) A landmark
list that does not have exactly 5 points makes the OpenCV estimation call
raise, so an error does surface and nothing reaches the recognition network.
(ii) But for the 5 collinear points `(0,0),(1,1),(2,2),(3,3),(4,4)`, whenever
the external estimator returns *any* transform (OpenCV's RANSAC fits a
2-point subsample of collinear input and does return one), `align_face`
returns a warped image with no error and `extract_embedding` proceeds to the
recognition network — there is no `AlignmentSingular` error path in the code,
contradicting the claim. -/
theorem C8_no_alignment_singular_error :
    (∀ (est : List (ℚ × ℚ) → Option Tform) (lms : List (ℚ × ℚ)),
      lms.length ≠ 5 →
      align_face est lms =
        AlignResult.pyError "cv2.error: from and to must have the same point count" ∧
      extract_embedding_reaches_network est lms = none) ∧
    (∀ (est : List (ℚ × ℚ) → Option Tform) (m : Tform),
      est [(0, 0), (1, 1), (2, 2), (3, 3), (4, 4)] = some m →
      align_face est [(0, 0), (1, 1), (2, 2), (3, 3), (4, 4)] =
        AlignResult.aligned m ∧
      extract_embedding_reaches_network est
        [(0, 0), (1, 1), (2, 2), (3, 3), (4, 4)] = some m) := by
  constructor
  · intro est lms hlen
    have ha : align_face est lms =
        AlignResult.pyError "cv2.error: from and to must have the same point count" := by
      rw [align_face, if_pos hlen]
    exact ⟨ha, by rw [extract_embedding_reaches_network, ha]⟩
  · intro est m hm
    have ha : align_face est [(0, 0), (1, 1), (2, 2), (3, 3), (4, 4)] =
        AlignResult.aligned m := by
      rw [align_face, if_neg (by norm_num), hm]
    exact ⟨ha, by rw [extract_embedding_reaches_network, ha]⟩

/-- Witness for C8: with a constant estimator returning the identity
transform, the collinear input is aligned without error and reaches the
recognition network; a 4-point input raises instead. -/
theorem C8_no_alignment_singular_error_witness :
    align_face (fun _ => some ⟨1, 0, 0, 0, 1, 0⟩)
        [(0, 0), (1, 1), (2, 2), (3, 3), (4, 4)] =
      AlignResult.aligned ⟨1, 0, 0, 0, 1, 0⟩ ∧
    extract_embedding_reaches_network (fun _ => some ⟨1, 0, 0, 0, 1, 0⟩)
        [(0, 0), (1, 1), (2, 2), (3, 3), (4, 4)] = some ⟨1, 0, 0, 0, 1, 0⟩ ∧
    align_face (fun _ => some ⟨1, 0, 0, 0, 1, 0⟩) [(0, 0), (1, 1), (2, 2), (3, 3)] =
      AlignResult.pyError "cv2.error: from and to must have the same point count" :=
  ⟨(C8_no_alignment_singular_error.2 (fun _ => some ⟨1, 0, 0, 0, 1, 0⟩)
      ⟨1, 0, 0, 0, 1, 0⟩ rfl).1,
   (C8_no_alignment_singular_error.2 (fun _ => some ⟨1, 0, 0, 0, 1, 0⟩)
      ⟨1, 0, 0, 0, 1, 0⟩ rfl).2,
   (C8_no_alignment_singular_error.1 (fun _ => some ⟨1, 0, 0, 0, 1, 0⟩)
      [(0, 0), (1, 1), (2, 2), (3, 3)] (by norm_num)).1⟩

end FaceRecognizer

end LinuxHello
